import Mathlib

/-!
Verification of the deal-economics engine of `src/App.tsx`.

The engine is the pure computation inside the `calc` memo together with the
helpers `clampNum`, `npv` and `irr`.  JavaScript numbers are modelled by `ℚ`
(the arithmetic the claims speak about is exact rational arithmetic; no
input considered here produces a non-finite intermediate value, and the
`isNaN` guard of `irr` can never fire over `ℚ`).  The `for` loops of the
source become structural recursions carrying exactly the state the loops
carry.
-/

namespace DealEval

/-- The `Inputs` record of `App.tsx` (its fields in source order). -/
structure Inputs where
  termMonths : ℚ
  units : ℚ
  arpuMonthlyPerUnit : ℚ
  upfrontPaymentTotal : ℚ
  tpmsCapexPerUnit : ℚ
  otherHwCapexPerUnit : ℚ
  installCapexPerUnit : ℚ
  tpmsAmortMonths : ℚ
  otherAmortMonths : ℚ
  airtimePerUnit : ℚ
  thirdPartyPerUnit : ℚ
  mcfLicensePerUnit : ℚ
  peoplePerUnit : ℚ
  warrantyPerUnit : ℚ
  discountRateAnnualPct : ℚ
  deriving Repr, DecidableEq

/-- The `MonthRow` record of `App.tsx`. -/
structure MonthRow where
  month : ℕ
  revenue : ℚ
  cogsRecurring : ℚ
  amortTPMS : ℚ
  amortOther : ℚ
  totalCOGS : ℚ
  grossMargin : ℚ
  grossMarginPct : ℚ
  operatingProfit : ℚ
  depreciationAddback : ℚ
  capexCash : ℚ
  upfrontCash : ℚ
  fcf : ℚ
  cumFCF : ℚ
  deriving Repr, DecidableEq

/-- The `Annual` record built inside `calc`. -/
structure AnnualRow where
  year : ℕ
  revenue : ℚ
  cogsRecurring : ℚ
  amort : ℚ
  totalCOGS : ℚ
  grossMargin : ℚ
  grossMarginPct : ℚ
  operatingProfit : ℚ
  fcf : ℚ
  cumRevenue : ℚ
  deriving Repr, DecidableEq

/-- `clampNum` of `App.tsx`: `isFinite(n) ? Math.max(min, n) : min`; a `ℚ`
is always finite, so this is `max`. -/
def clampNum (n : ℚ) (lb : ℚ) : ℚ := max lb n

/-- `npv`, written with the running index `t` of the source loop explicit. -/
def npvAux (rate : ℚ) : ℕ → List ℚ → ℚ
  | _, [] => 0
  | t, c :: cs => c / (1 + rate) ^ t + npvAux rate (t + 1) cs

/-- `npv(rate, cashFlows)` of `App.tsx`. -/
def npv (rate : ℚ) (cashFlows : List ℚ) : ℚ := npvAux rate 0 cashFlows

/-- Lower end of the bisection domain of `irr` (`lo = -0.9999`). -/
def irrLo : ℚ := -(9999 / 10000)

/-- Upper end of the bisection domain of `irr` (`hi = 10`). -/
def irrHi : ℚ := 10

/-- The acceptance epsilon of `irr`'s bisection (`1e-8`). -/
def irrEps : ℚ := 1 / 100000000

/-- The grid `r = -0.9, -0.89, ..., 1` of `irr`'s fallback scan
(`for (let r = -0.9; r <= 1; r += 0.01)`; over `ℚ` the step is exact, so the
loop visits the 191 points `-0.9 + k * 0.01`, `k = 0..190`). -/
def scanGrid : List ℚ :=
  (List.range 191).map (fun k => -(9 / 10) + (k : ℚ) * (1 / 100))

/-- The fallback scan of `irr`: fold the grid tracking `(bestR, bestAbs)`,
replacing the best point when `Math.abs(f(r)) < bestAbs` (strictly). -/
def scanBest (f : ℚ → ℚ) : ℚ × ℚ → List ℚ → ℚ × ℚ
  | best, [] => best
  | (bestR, bestAbs), r :: rs =>
    if |f r| < bestAbs then scanBest f (r, |f r|) rs
    else scanBest f (bestR, bestAbs) rs

/-- The bisection loop of `irr`, with its iteration budget explicit.  The
state is `(lo, hi, fLo, mid)` exactly as in the source (`fHi` is written but
never read after the sign test, so it is not carried); the second component
of the result counts the iterations the loop executed.  Fuel `0` returns the
`mid` carried in, which is the source's `return mid` after the loop. -/
def bisectLoop (f : ℚ → ℚ) : ℕ → ℚ → ℚ → ℚ → ℚ → ℚ × ℕ
  | 0, _, _, _, mid => (mid, 0)
  | fuel + 1, lo, hi, fLo, _ =>
    let mid := (lo + hi) / 2
    let fMid := f mid
    if |fMid| < irrEps then (mid, 1)
    else if fLo * fMid ≤ 0 then
      let p := bisectLoop f fuel lo mid fLo mid
      (p.1, p.2 + 1)
    else
      let p := bisectLoop f fuel mid hi fMid mid
      (p.1, p.2 + 1)

/-- `irr(cashFlows, guess)` of `App.tsx`.  The `isNaN` test of the source
can never be true over `ℚ`, so the `null` early return does not occur in
this model; the `Option` return type is kept from the source signature. -/
def irr (cashFlows : List ℚ) (guess : ℚ) : Option ℚ :=
  let f := fun r => npv r cashFlows
  let fLo := f irrLo
  let fHi := f irrHi
  if fLo * fHi > 0 then
    some (scanBest f (irrLo, |fLo|) scanGrid).1
  else
    some (bisectLoop f 200 irrLo irrHi fLo guess).1

/-! ### Derived constants of `calc` -/

/-- `n = clampNum(inp.termMonths, 1)`. -/
def termClamped (inp : Inputs) : ℚ := clampNum inp.termMonths 1

/-- `units = clampNum(inp.units, 0)`. -/
def unitsClamped (inp : Inputs) : ℚ := clampNum inp.units 0

/-- `monthlyRecurringRevenue = units * inp.arpuMonthlyPerUnit`. -/
def monthlyRecurringRevenue (inp : Inputs) : ℚ :=
  unitsClamped inp * inp.arpuMonthlyPerUnit

/-- `upfrontRecognMonths = Math.min(n, clampNum(inp.otherAmortMonths, 1))`. -/
def upfrontRecognMonths (inp : Inputs) : ℚ :=
  min (termClamped inp) (clampNum inp.otherAmortMonths 1)

/-- `upfrontRevenuePerMonth = inp.upfrontPaymentTotal / upfrontRecognMonths`. -/
def upfrontRevenuePerMonth (inp : Inputs) : ℚ :=
  inp.upfrontPaymentTotal / upfrontRecognMonths inp

/-- `capexTPMS = units * inp.tpmsCapexPerUnit`. -/
def capexTPMS (inp : Inputs) : ℚ := unitsClamped inp * inp.tpmsCapexPerUnit

/-- `capexOther = units * inp.otherHwCapexPerUnit`. -/
def capexOther (inp : Inputs) : ℚ := unitsClamped inp * inp.otherHwCapexPerUnit

/-- `capexInstall = units * inp.installCapexPerUnit`. -/
def capexInstall (inp : Inputs) : ℚ := unitsClamped inp * inp.installCapexPerUnit

/-- `totalCapexCash = capexTPMS + capexOther + capexInstall`. -/
def totalCapexCash (inp : Inputs) : ℚ :=
  capexTPMS inp + capexOther inp + capexInstall inp

/-- `amortTPMSMonthly = capexTPMS / clampNum(inp.tpmsAmortMonths, 1)`. -/
def amortTPMSMonthly (inp : Inputs) : ℚ :=
  capexTPMS inp / clampNum inp.tpmsAmortMonths 1

/-- `amortOtherMonthly = (capexOther + capexInstall) / clampNum(inp.otherAmortMonths, 1)`. -/
def amortOtherMonthly (inp : Inputs) : ℚ :=
  (capexOther inp + capexInstall inp) / clampNum inp.otherAmortMonths 1

/-- `recurringCOGSPerUnit`: the sum of the five per-unit monthly cost fields. -/
def recurringCOGSPerUnit (inp : Inputs) : ℚ :=
  inp.airtimePerUnit + inp.thirdPartyPerUnit + inp.mcfLicensePerUnit +
    inp.peoplePerUnit + inp.warrantyPerUnit

/-- `recurringCOGSMonthly = units * recurringCOGSPerUnit`. -/
def recurringCOGSMonthly (inp : Inputs) : ℚ :=
  unitsClamped inp * recurringCOGSPerUnit inp

/-- `cashM0 = inp.upfrontPaymentTotal - totalCapexCash` (month-0 cash event). -/
def cashM0 (inp : Inputs) : ℚ := inp.upfrontPaymentTotal - totalCapexCash inp

/-- One iteration of the schedule loop: the row built for month `m` when the
cumulative free cash flow before the iteration is `cumPrev`. -/
def monthRow (inp : Inputs) (m : ℕ) (cumPrev : ℚ) : MonthRow :=
  let revenue := monthlyRecurringRevenue inp +
    (if (m : ℚ) ≤ upfrontRecognMonths inp then upfrontRevenuePerMonth inp else 0)
  let amortTP := if (m : ℚ) ≤ inp.tpmsAmortMonths then amortTPMSMonthly inp else 0
  let amortOT := if (m : ℚ) ≤ inp.otherAmortMonths then amortOtherMonthly inp else 0
  let cogsRecurring := recurringCOGSMonthly inp
  let totalCOGS := cogsRecurring + amortTP + amortOT
  let grossMargin := revenue - totalCOGS
  let grossMarginPct := if 0 < revenue then grossMargin / revenue else 0
  let operatingProfit := grossMargin
  let depreciationAddback := amortTP + amortOT
  let fcfMonthly := operatingProfit + depreciationAddback
  { month := m
    revenue := revenue
    cogsRecurring := cogsRecurring
    amortTPMS := amortTP
    amortOther := amortOT
    totalCOGS := totalCOGS
    grossMargin := grossMargin
    grossMarginPct := grossMarginPct
    operatingProfit := operatingProfit
    depreciationAddback := depreciationAddback
    capexCash := 0
    upfrontCash := 0
    fcf := fcfMonthly
    cumFCF := cumPrev + fcfMonthly }

/-- The number of operating months the loop `for (m = 1; m <= n; m++)`
executes: `⌊n⌋` for `n = clampNum(termMonths, 1) ≥ 1`. -/
def numMonths (inp : Inputs) : ℕ := (termClamped inp).floor.toNat

/-- The schedule loop: `k` remaining iterations starting at month `m` with
cumulative `cum` carried in. -/
def rowsAux (inp : Inputs) (cum : ℚ) (m : ℕ) : ℕ → List MonthRow
  | 0 => []
  | k + 1 =>
    let r := monthRow inp m cum
    r :: rowsAux inp r.cumFCF (m + 1) k

/-- The `rows` array of `calc`: months `1..n`, cumulative seeded with the
month-0 cash event (`cumFCF += cashM0` before the loop). -/
def rows (inp : Inputs) : List MonthRow :=
  rowsAux inp (cashM0 inp) 1 (numMonths inp)

/-- The `cashFlows` array of `calc`: the month-0 cash event followed by the
monthly free cash flows. -/
def cashFlows (inp : Inputs) : List ℚ :=
  cashM0 inp :: (rows inp).map MonthRow.fcf

/-- The payback scan of `calc`: `running += rows[i].fcf`, answer
`rows[i].month` at the first `running >= 0`. -/
def paybackLoop (running : ℚ) : List MonthRow → Option ℕ
  | [] => none
  | r :: rs =>
    if 0 ≤ running + r.fcf then some r.month else paybackLoop (running + r.fcf) rs

/-- `payback` of `calc`: `0` when the month-0 cash event is already
non-negative, otherwise the first month whose running cumulative is
non-negative, `none` when the scan finds no such month. -/
def payback (inp : Inputs) : Option ℕ :=
  if 0 ≤ cashM0 inp then some 0 else paybackLoop (cashM0 inp) (rows inp)

/-- `years = Math.ceil(n / 12)`. -/
def numYears (inp : Inputs) : ℕ := (termClamped inp / 12).ceil.toNat

/-- The annual row of year index `y` (0-based): the sums over
`rows.slice(y*12, min(y*12+12, rows.length))`, with `cumRev` carried in. -/
def annualRowOf (inp : Inputs) (y : ℕ) (cumRev : ℚ) : AnnualRow :=
  let slice := ((rows inp).drop (12 * y)).take 12
  let revenue := (slice.map MonthRow.revenue).sum
  let cogsRecurring := (slice.map MonthRow.cogsRecurring).sum
  let amort := (slice.map (fun r => r.amortTPMS + r.amortOther)).sum
  let totalCOGS := (slice.map MonthRow.totalCOGS).sum
  let grossMargin := revenue - totalCOGS
  let grossMarginPct := if 0 < revenue then grossMargin / revenue else 0
  let operatingProfit := (slice.map MonthRow.operatingProfit).sum
  let fcf := (slice.map MonthRow.fcf).sum
  { year := y + 1
    revenue := revenue
    cogsRecurring := cogsRecurring
    amort := amort
    totalCOGS := totalCOGS
    grossMargin := grossMargin
    grossMarginPct := grossMarginPct
    operatingProfit := operatingProfit
    fcf := fcf
    cumRevenue := cumRev + revenue }

/-- The annual aggregation loop: `k` remaining years starting at year index
`y` with cumulative revenue `cumRev` carried in. -/
def annualAux (inp : Inputs) (cumRev : ℚ) (y : ℕ) : ℕ → List AnnualRow
  | 0 => []
  | k + 1 =>
    let a := annualRowOf inp y cumRev
    a :: annualAux inp a.cumRevenue (y + 1) k

/-- The `annual` array of `calc`. -/
def annual (inp : Inputs) : List AnnualRow :=
  annualAux inp 0 0 (numYears inp)

/-! ### Specification-side quantities used to state the claims -/

/-- The free cash flow of operating month `m` (it does not depend on the
cumulative carried into the row, proved in `monthRow_fcf`). -/
def fcfAt (inp : Inputs) (m : ℕ) : ℚ := (monthRow inp m 0).fcf

/-- Cumulative free cash flow through period `t`: the month-0 cash event
plus the free cash flows of months `1..t`. -/
def cumAt (inp : Inputs) (t : ℕ) : ℚ :=
  cashM0 inp + ∑ j ∈ Finset.range t, fcfAt inp (j + 1)

/-- Ordering on payback results that treats `none` (never paid back) as
larger than every month index. -/
def paybackLe : Option ℕ → Option ℕ → Prop
  | _, none => True
  | some a, some b => a ≤ b
  | none, some _ => False

/-- The payback scan, rephrased as a recursion on months: the running value
entering month `m` is threaded, `fuel` months remain. -/
def paybackFrom (inp : Inputs) (c : ℚ) (m : ℕ) : ℕ → Option ℕ
  | 0 => none
  | fuel + 1 =>
    if 0 ≤ c + fcfAt inp m then some m
    else paybackFrom inp (c + fcfAt inp m) (m + 1) fuel

/-- The parameter record with a replaced monthly recurring revenue per unit. -/
def setArpu (inp : Inputs) (a : ℚ) : Inputs := { inp with arpuMonthlyPerUnit := a }

/-- The parameter record with a replaced TPMS amortization term. -/
def setTpmsAmort (inp : Inputs) (t : ℚ) : Inputs := { inp with tpmsAmortMonths := t }

/-- The accrual revenue of operating month `m` (independent of the
cumulative carried into the row). -/
def revenueAt (inp : Inputs) (m : ℕ) : ℚ := (monthRow inp m 0).revenue

/-- The concrete scenario of the spec's §8: term 36, 100 units, ARPU 20,
upfront 100 per unit (10,000 total), capex 80 + 70 + 30 per unit, 24-month
amortization in both buckets, recurring cost 1.00 per unit per month,
10% annual discount rate. -/
def scenarioDeal : Inputs where
  termMonths := 36
  units := 100
  arpuMonthlyPerUnit := 20
  upfrontPaymentTotal := 10000
  tpmsCapexPerUnit := 80
  otherHwCapexPerUnit := 70
  installCapexPerUnit := 30
  tpmsAmortMonths := 24
  otherAmortMonths := 24
  airtimePerUnit := 35 / 100
  thirdPartyPerUnit := 20 / 100
  mcfLicensePerUnit := 25 / 100
  peoplePerUnit := 15 / 100
  warrantyPerUnit := 5 / 100
  discountRateAnnualPct := 10

/-- A record with zero units but a positive upfront payment total: term 2,
the upfront 240 recognized over `min(term, otherAmortMonths) = 1` month. -/
def zeroUnitsDeal : Inputs where
  termMonths := 2
  units := 0
  arpuMonthlyPerUnit := 5
  upfrontPaymentTotal := 240
  tpmsCapexPerUnit := 1
  otherHwCapexPerUnit := 1
  installCapexPerUnit := 1
  tpmsAmortMonths := 1
  otherAmortMonths := 1
  airtimePerUnit := 1
  thirdPartyPerUnit := 1
  mcfLicensePerUnit := 1
  peoplePerUnit := 1
  warrantyPerUnit := 1
  discountRateAnnualPct := 10

/-- A record with zero units and a zero upfront payment total. -/
def zeroUnitsZeroUpfrontDeal : Inputs where
  termMonths := 2
  units := 0
  arpuMonthlyPerUnit := 5
  upfrontPaymentTotal := 0
  tpmsCapexPerUnit := 1
  otherHwCapexPerUnit := 1
  installCapexPerUnit := 1
  tpmsAmortMonths := 1
  otherAmortMonths := 1
  airtimePerUnit := 1
  thirdPartyPerUnit := 1
  mcfLicensePerUnit := 1
  peoplePerUnit := 1
  warrantyPerUnit := 1
  discountRateAnnualPct := 10

/-- A small sample record: 2 units at 5 upfront per unit (total 10), capex
3 + 4 + 5 per unit, term 3. -/
def sampleDeal : Inputs where
  termMonths := 3
  units := 2
  arpuMonthlyPerUnit := 1
  upfrontPaymentTotal := 10
  tpmsCapexPerUnit := 3
  otherHwCapexPerUnit := 4
  installCapexPerUnit := 5
  tpmsAmortMonths := 2
  otherAmortMonths := 2
  airtimePerUnit := 1
  thirdPartyPerUnit := 1
  mcfLicensePerUnit := 1
  peoplePerUnit := 1
  warrantyPerUnit := 1
  discountRateAnnualPct := 10

/-! ### Field-level facts about a schedule row -/

theorem monthRow_month (inp : Inputs) (m : ℕ) (c : ℚ) :
    (monthRow inp m c).month = m := rfl

theorem monthRow_capexCash (inp : Inputs) (m : ℕ) (c : ℚ) :
    (monthRow inp m c).capexCash = 0 := rfl

theorem monthRow_upfrontCash (inp : Inputs) (m : ℕ) (c : ℚ) :
    (monthRow inp m c).upfrontCash = 0 := rfl

theorem monthRow_grossMargin (inp : Inputs) (m : ℕ) (c : ℚ) :
    (monthRow inp m c).grossMargin =
      (monthRow inp m c).revenue - (monthRow inp m c).totalCOGS := rfl

theorem monthRow_grossMarginPct (inp : Inputs) (m : ℕ) (c : ℚ) :
    (monthRow inp m c).grossMarginPct =
      if 0 < (monthRow inp m c).revenue then
        (monthRow inp m c).grossMargin / (monthRow inp m c).revenue
      else 0 := rfl

theorem monthRow_fcf (inp : Inputs) (m : ℕ) (c : ℚ) :
    (monthRow inp m c).fcf = fcfAt inp m := rfl

theorem monthRow_cumFCF (inp : Inputs) (m : ℕ) (c : ℚ) :
    (monthRow inp m c).cumFCF = c + fcfAt inp m := rfl

/-- The depreciation add-back cancels the amortization inside COGS:
a month's free cash flow is its revenue minus its recurring cash COGS. -/
theorem monthRow_fcf_eq_rev_sub_cogs (inp : Inputs) (m : ℕ) (c : ℚ) :
    (monthRow inp m c).fcf =
      (monthRow inp m c).revenue - (monthRow inp m c).cogsRecurring := by
  simp only [monthRow]
  ring

/-- Every member of the schedule list is a `monthRow`. -/
theorem mem_rowsAux (inp : Inputs) :
    ∀ {k m : ℕ} {c : ℚ} {r : MonthRow}, r ∈ rowsAux inp c m k →
      ∃ m' c', r = monthRow inp m' c' := by
  intro k
  induction k with
  | zero => intro m c r h; simp [rowsAux] at h
  | succ k ih =>
    intro m c r h
    simp only [rowsAux, List.mem_cons] at h
    rcases h with h | h
    · exact ⟨m, c, h⟩
    · exact ih h

theorem mem_rows (inp : Inputs) {r : MonthRow} (h : r ∈ rows inp) :
    ∃ m' c', r = monthRow inp m' c' := mem_rowsAux inp h

/-! ### Field-level facts about an annual row -/

theorem annualRowOf_grossMargin (inp : Inputs) (y : ℕ) (c : ℚ) :
    (annualRowOf inp y c).grossMargin =
      (annualRowOf inp y c).revenue - (annualRowOf inp y c).totalCOGS := rfl

theorem annualRowOf_grossMarginPct (inp : Inputs) (y : ℕ) (c : ℚ) :
    (annualRowOf inp y c).grossMarginPct =
      if 0 < (annualRowOf inp y c).revenue then
        (annualRowOf inp y c).grossMargin / (annualRowOf inp y c).revenue
      else 0 := rfl

/-- Every member of the annual list is an `annualRowOf`. -/
theorem mem_annualAux (inp : Inputs) :
    ∀ {k y : ℕ} {c : ℚ} {a : AnnualRow}, a ∈ annualAux inp c y k →
      ∃ y' c', a = annualRowOf inp y' c' := by
  intro k
  induction k with
  | zero => intro y c a h; simp [annualAux] at h
  | succ k ih =>
    intro y c a h
    simp only [annualAux, List.mem_cons] at h
    rcases h with h | h
    · exact ⟨y, c, h⟩
    · exact ih h

theorem mem_annual (inp : Inputs) {a : AnnualRow} (h : a ∈ annual inp) :
    ∃ y' c', a = annualRowOf inp y' c' := mem_annualAux inp h

/-! ### NPV at rate zero -/

theorem npvAux_zero_rate : ∀ (t : ℕ) (cfs : List ℚ), npvAux 0 t cfs = cfs.sum := by
  intro t cfs
  induction cfs generalizing t with
  | nil => simp [npvAux]
  | cons c cs ih => simp [npvAux, ih]

/-! ### The payback scan characterized through cumulative free cash flow -/

theorem cumAt_zero (inp : Inputs) : cumAt inp 0 = cashM0 inp := by
  simp [cumAt]

theorem cumAt_succ (inp : Inputs) (t : ℕ) :
    cumAt inp (t + 1) = cumAt inp t + fcfAt inp (t + 1) := by
  simp [cumAt, Finset.sum_range_succ]
  ring

/-- The source's scan over the row list equals the month recursion: the
cumulative seeded into the rows is irrelevant to the scan. -/
theorem paybackLoop_rowsAux (inp : Inputs) :
    ∀ (k m : ℕ) (c cum : ℚ),
      paybackLoop c (rowsAux inp cum m k) = paybackFrom inp c m k := by
  intro k
  induction k with
  | zero => intro m c cum; simp [rowsAux, paybackLoop, paybackFrom]
  | succ k ih =>
    intro m c cum
    simp only [rowsAux, paybackLoop, paybackFrom, monthRow_fcf, monthRow_month]
    by_cases h : 0 ≤ c + fcfAt inp m
    · simp [h]
    · simp [h, ih]

/-- What the month recursion finds: the first month in its window whose
cumulative free cash flow is non-negative. -/
theorem paybackFrom_some (inp : Inputs) :
    ∀ (k t p : ℕ),
      (paybackFrom inp (cumAt inp t) (t + 1) k = some p ↔
        t + 1 ≤ p ∧ p ≤ t + k ∧ 0 ≤ cumAt inp p ∧
          ∀ q, t < q → q < p → cumAt inp q < 0) := by
  intro k
  induction k with
  | zero =>
    intro t p
    simp only [paybackFrom]
    constructor
    · intro h; exact absurd h (by simp)
    · rintro ⟨h1, h2, -, -⟩; omega
  | succ k ih =>
    intro t p
    have hnext : cumAt inp t + fcfAt inp (t + 1) = cumAt inp (t + 1) :=
      (cumAt_succ inp t).symm
    simp only [paybackFrom, hnext]
    by_cases h : 0 ≤ cumAt inp (t + 1)
    · simp only [if_pos h]
      constructor
      · rintro ⟨rfl⟩
        exact ⟨le_refl _, by omega, h, fun q hq hq' => absurd (lt_trans hq hq') (by omega)⟩
      · rintro ⟨h1, h2, h3, h4⟩
        by_cases hp : p = t + 1
        · simp [hp]
        · exact absurd h (not_le.2 (h4 (t + 1) (by omega) (by omega)))
    · simp only [if_neg h]
      rw [ih (t + 1) p]
      push_neg at h
      constructor
      · rintro ⟨h1, h2, h3, h4⟩
        refine ⟨by omega, by omega, h3, fun q hq hq' => ?_⟩
        rcases Nat.lt_or_ge q (t + 2) with hq2 | hq2
        · have : q = t + 1 := by omega
          simpa [this] using h
        · exact h4 q (by omega) hq'
      · rintro ⟨h1, h2, h3, h4⟩
        have hp : p ≠ t + 1 := by
          rintro rfl
          exact absurd h3 (not_le.2 h)
        exact ⟨by omega, by omega, h3, fun q hq hq' => h4 q (by omega) hq'⟩

/-- `payback` returns exactly the least period index whose cumulative free
cash flow is non-negative, when one exists within the term. -/
theorem payback_some_iff (inp : Inputs) (p : ℕ) :
    payback inp = some p ↔
      p ≤ numMonths inp ∧ 0 ≤ cumAt inp p ∧ ∀ q < p, cumAt inp q < 0 := by
  unfold payback
  by_cases h0 : 0 ≤ cashM0 inp
  · simp only [if_pos h0]
    constructor
    · rintro ⟨rfl⟩
      exact ⟨Nat.zero_le _, by simpa [cumAt_zero] using h0, fun q hq => absurd hq (by omega)⟩
    · rintro ⟨-, -, h4⟩
      by_cases hp : p = 0
      · simp [hp]
      · have := h4 0 (by omega)
        rw [cumAt_zero] at this
        exact absurd h0 (not_le.2 this)
  · simp only [if_neg h0]
    rw [rows, paybackLoop_rowsAux]
    have hc : cashM0 inp = cumAt inp 0 := (cumAt_zero inp).symm
    rw [hc, show (1 : ℕ) = 0 + 1 from rfl, paybackFrom_some inp (numMonths inp) 0 p]
    push_neg at h0
    constructor
    · rintro ⟨h1, h2, h3, h4⟩
      refine ⟨by omega, h3, fun q hq => ?_⟩
      rcases Nat.eq_zero_or_pos q with rfl | hq0
      · rw [cumAt_zero]; exact h0
      · exact h4 q (by omega) hq
    · rintro ⟨h1, h2, h3⟩
      have hp : p ≠ 0 := by
        rintro rfl
        rw [cumAt_zero] at h2
        exact absurd h2 (not_le.2 h0)
      exact ⟨by omega, by omega, h2, fun q hq hq' => h3 q hq'⟩

/-- `payback` is `none` exactly when cumulative free cash flow stays
negative through the whole term. -/
theorem payback_none_iff (inp : Inputs) :
    payback inp = none ↔ ∀ q ≤ numMonths inp, cumAt inp q < 0 := by
  constructor
  · intro h q hq
    by_contra hge
    push_neg at hge
    have hex : ∃ r, r ≤ numMonths inp ∧ 0 ≤ cumAt inp r := ⟨q, hq, hge⟩
    set r0 := Nat.find hex with hr0
    obtain ⟨hr1, hr2⟩ := Nat.find_spec hex
    have : payback inp = some r0 := by
      rw [payback_some_iff]
      refine ⟨hr1, hr2, fun s hs => ?_⟩
      by_contra hsge
      push_neg at hsge
      exact absurd (Nat.find_min hex hs) (by push_neg; exact ⟨by omega, hsge⟩)
    rw [h] at this
    exact Option.noConfusion this
  · intro h
    rcases hp : payback inp with - | p
    · rfl
    · rw [payback_some_iff] at hp
      obtain ⟨h1, h2, -⟩ := hp
      exact absurd h2 (not_le.2 (h p h1))

/-- When some period within the term has non-negative cumulative free cash
flow, payback is reached no later than that period. -/
theorem payback_le_of_cross (inp : Inputs) {q : ℕ}
    (hq : q ≤ numMonths inp) (hc : 0 ≤ cumAt inp q) :
    ∃ k, payback inp = some k ∧ k ≤ q := by
  have hex : ∃ r, r ≤ numMonths inp ∧ 0 ≤ cumAt inp r := ⟨q, hq, hc⟩
  refine ⟨Nat.find hex, ?_, Nat.find_le ⟨hq, hc⟩⟩
  rw [payback_some_iff]
  obtain ⟨hr1, hr2⟩ := Nat.find_spec hex
  refine ⟨hr1, hr2, fun s hs => ?_⟩
  by_contra hsge
  push_neg at hsge
  exact absurd (Nat.find_min hex hs) (by push_neg; exact ⟨by omega, hsge⟩)

/-! ### The fallback scan of `irr` -/

/-- What the fold over the grid maintains: the best point seen so far.  The
result is one of the candidates (the seed or a grid point), its recorded
value is `|f|` at the result, and it is minimal among seed and grid. -/
theorem scanBest_spec (f : ℚ → ℚ) :
    ∀ (l : List ℚ) (bR : ℚ),
      ((scanBest f (bR, |f bR|) l).1 = bR ∨ (scanBest f (bR, |f bR|) l).1 ∈ l) ∧
        (scanBest f (bR, |f bR|) l).2 = |f (scanBest f (bR, |f bR|) l).1| ∧
        (scanBest f (bR, |f bR|) l).2 ≤ |f bR| ∧
        ∀ c ∈ l, (scanBest f (bR, |f bR|) l).2 ≤ |f c| := by
  intro l
  induction l with
  | nil => intro bR; simp [scanBest]
  | cons r rs ih =>
    intro bR
    by_cases h : |f r| < |f bR|
    · have hr := ih r
      simp only [scanBest, if_pos h]
      refine ⟨?_, hr.2.1, le_trans hr.2.2.1 (le_of_lt h), ?_⟩
      · rcases hr.1 with h1 | h1
        · exact Or.inr (by simp [h1])
        · exact Or.inr (List.mem_cons_of_mem _ h1)
      · intro c hc
        rcases List.mem_cons.mp hc with rfl | hc
        · exact hr.2.2.1
        · exact hr.2.2.2 c hc
    · have hr := ih bR
      simp only [scanBest, if_neg h]
      push_neg at h
      refine ⟨?_, hr.2.1, hr.2.2.1, ?_⟩
      · rcases hr.1 with h1 | h1
        · exact Or.inl h1
        · exact Or.inr (List.mem_cons_of_mem _ h1)
      · intro c hc
        rcases List.mem_cons.mp hc with rfl | hc
        · exact le_trans hr.2.2.1 h
        · exact hr.2.2.2 c hc

/-! ### The bisection loop of `irr` -/

/-- The loop executes at most `fuel` iterations. -/
theorem bisectLoop_steps_le (f : ℚ → ℚ) :
    ∀ (fuel : ℕ) (lo hi fLo g : ℚ), (bisectLoop f fuel lo hi fLo g).2 ≤ fuel := by
  intro fuel
  induction fuel with
  | zero => intro lo hi fLo g; simp [bisectLoop]
  | succ fuel ih =>
    intro lo hi fLo g
    simp only [bisectLoop]
    split
    · omega
    · split
      · simpa using Nat.succ_le_succ (ih lo ((lo + hi) / 2) fLo ((lo + hi) / 2))
      · simpa using Nat.succ_le_succ (ih ((lo + hi) / 2) hi (f ((lo + hi) / 2)) ((lo + hi) / 2))

/-- The loop either stops early at a midpoint whose `|NPV|` is below the
epsilon, or it uses its whole iteration budget and returns the midpoint it
reached. -/
theorem bisectLoop_stop (f : ℚ → ℚ) :
    ∀ (fuel : ℕ) (lo hi fLo g : ℚ),
      |f (bisectLoop f fuel lo hi fLo g).1| < irrEps ∨
        (bisectLoop f fuel lo hi fLo g).2 = fuel := by
  intro fuel
  induction fuel with
  | zero => intro lo hi fLo g; simp [bisectLoop]
  | succ fuel ih =>
    intro lo hi fLo g
    simp only [bisectLoop]
    split
    · next h => exact Or.inl h
    · split
      · rcases ih lo ((lo + hi) / 2) fLo ((lo + hi) / 2) with h | h
        · exact Or.inl h
        · exact Or.inr (by omega)
      · rcases ih ((lo + hi) / 2) hi (f ((lo + hi) / 2)) ((lo + hi) / 2) with h | h
        · exact Or.inl h
        · exact Or.inr (by omega)

/-- `irr` always yields a value in this model (the `isNaN` early return of
the source cannot fire over exact rational arithmetic). -/
theorem irr_isSome (cfs : List ℚ) (g : ℚ) : (irr cfs g).isSome = true := by
  by_cases h : npv irrLo cfs * npv irrHi cfs > 0 <;> simp [irr, h]

/-! ### Varying one input field -/

/-- Free cash flow of a month is revenue minus recurring cash COGS. -/
theorem fcfAt_eq (inp : Inputs) (m : ℕ) :
    fcfAt inp m = revenueAt inp m - recurringCOGSMonthly inp := by
  have h := monthRow_fcf_eq_rev_sub_cogs inp m 0
  simpa [fcfAt, revenueAt, monthRow] using h

theorem cashM0_setArpu (inp : Inputs) (a : ℚ) : cashM0 (setArpu inp a) = cashM0 inp := rfl

theorem numMonths_setArpu (inp : Inputs) (a : ℚ) :
    numMonths (setArpu inp a) = numMonths inp := rfl

theorem revenueAt_setArpu (inp : Inputs) (a : ℚ) (m : ℕ) :
    revenueAt (setArpu inp a) m =
      unitsClamped inp * a +
        (if (m : ℚ) ≤ upfrontRecognMonths inp then upfrontRevenuePerMonth inp else 0) := rfl

theorem recurringCOGSMonthly_setArpu (inp : Inputs) (a : ℚ) :
    recurringCOGSMonthly (setArpu inp a) = recurringCOGSMonthly inp := rfl

/-- Raising the per-unit recurring revenue never lowers a month's free cash
flow (the clamped unit count is non-negative). -/
theorem fcfAt_mono_arpu (inp : Inputs) {a : ℚ} (h : inp.arpuMonthlyPerUnit ≤ a)
    (m : ℕ) : fcfAt inp m ≤ fcfAt (setArpu inp a) m := by
  rw [fcfAt_eq, fcfAt_eq, recurringCOGSMonthly_setArpu, revenueAt_setArpu]
  have hrev : revenueAt inp m =
      unitsClamped inp * inp.arpuMonthlyPerUnit +
        (if (m : ℚ) ≤ upfrontRecognMonths inp then upfrontRevenuePerMonth inp else 0) := rfl
  rw [hrev]
  have hu : 0 ≤ unitsClamped inp := le_max_left 0 inp.units
  have := mul_le_mul_of_nonneg_left h hu
  linarith

/-- Raising the per-unit recurring revenue never lowers cumulative free
cash flow. -/
theorem cumAt_mono_arpu (inp : Inputs) {a : ℚ} (h : inp.arpuMonthlyPerUnit ≤ a)
    (t : ℕ) : cumAt inp t ≤ cumAt (setArpu inp a) t := by
  unfold cumAt
  rw [cashM0_setArpu]
  have := Finset.sum_le_sum
    (fun j (_ : j ∈ Finset.range t) => fcfAt_mono_arpu inp h (j + 1))
  linarith

theorem cashM0_setTpmsAmort (inp : Inputs) (t : ℚ) :
    cashM0 (setTpmsAmort inp t) = cashM0 inp := rfl

theorem numMonths_setTpmsAmort (inp : Inputs) (t : ℚ) :
    numMonths (setTpmsAmort inp t) = numMonths inp := rfl

theorem revenueAt_setTpmsAmort (inp : Inputs) (t : ℚ) (m : ℕ) :
    revenueAt (setTpmsAmort inp t) m = revenueAt inp m := rfl

theorem recurringCOGSMonthly_setTpmsAmort (inp : Inputs) (t : ℚ) :
    recurringCOGSMonthly (setTpmsAmort inp t) = recurringCOGSMonthly inp := rfl

/-- The TPMS amortization term has no effect on any month's free cash flow. -/
theorem fcfAt_setTpmsAmort (inp : Inputs) (t : ℚ) (m : ℕ) :
    fcfAt (setTpmsAmort inp t) m = fcfAt inp m := by
  rw [fcfAt_eq, fcfAt_eq, revenueAt_setTpmsAmort, recurringCOGSMonthly_setTpmsAmort]

/-- The TPMS amortization term has no effect on the free-cash-flow and
cumulative columns of the schedule. -/
theorem rowsAux_fcf_cum_setTpmsAmort (inp : Inputs) (t : ℚ) :
    ∀ (k m : ℕ) (c : ℚ),
      (rowsAux (setTpmsAmort inp t) c m k).map (fun r => (r.fcf, r.cumFCF)) =
        (rowsAux inp c m k).map (fun r => (r.fcf, r.cumFCF)) := by
  intro k
  induction k with
  | zero => intro m c; simp [rowsAux]
  | succ k ih =>
    intro m c
    simp only [rowsAux, List.map_cons, monthRow_fcf, monthRow_cumFCF,
      fcfAt_setTpmsAmort, List.cons.injEq]
    exact ⟨trivial, ih (m + 1) (c + fcfAt inp m)⟩

/-! ### Concrete evaluations of the spec's §8 scenario -/

/-- When the term has at least one month, the first schedule row is the
month-1 row seeded with the inception cash event. -/
theorem rows_head_of_numMonths (inp : Inputs) (k : ℕ) (h : numMonths inp = k + 1) :
    (rows inp).head? = some (monthRow inp 1 (cashM0 inp)) := by
  rw [rows, h]
  rfl

theorem scenarioDeal_numMonths : numMonths scenarioDeal = 36 := by
  norm_num [numMonths, termClamped, clampNum, scenarioDeal, Rat.floor_def']
  decide

theorem scenarioDeal_cashM0 : cashM0 scenarioDeal = -8000 := by
  norm_num [cashM0, totalCapexCash, capexTPMS, capexOther, capexInstall,
    unitsClamped, clampNum, scenarioDeal]

theorem scenarioDeal_head_grossMargin :
    (rows scenarioDeal).head?.map MonthRow.grossMargin = some (4700 / 3) := by
  rw [rows_head_of_numMonths scenarioDeal 35 scenarioDeal_numMonths]
  norm_num [monthRow, monthlyRecurringRevenue, upfrontRecognMonths,
    upfrontRevenuePerMonth, amortTPMSMonthly, amortOtherMonthly,
    recurringCOGSMonthly, recurringCOGSPerUnit, capexTPMS, capexOther,
    capexInstall, unitsClamped, termClamped, clampNum, scenarioDeal]

theorem scenarioDeal_head_fcf :
    (rows scenarioDeal).head?.map MonthRow.fcf = some (6950 / 3) := by
  rw [rows_head_of_numMonths scenarioDeal 35 scenarioDeal_numMonths]
  norm_num [monthRow, monthlyRecurringRevenue, upfrontRecognMonths,
    upfrontRevenuePerMonth, amortTPMSMonthly, amortOtherMonthly,
    recurringCOGSMonthly, recurringCOGSPerUnit, capexTPMS, capexOther,
    capexInstall, unitsClamped, termClamped, clampNum, scenarioDeal]

theorem scenarioDeal_fcfAt_one : fcfAt scenarioDeal 1 = 6950 / 3 := by
  norm_num [fcfAt, monthRow, monthlyRecurringRevenue, upfrontRecognMonths,
    upfrontRevenuePerMonth, amortTPMSMonthly, amortOtherMonthly,
    recurringCOGSMonthly, recurringCOGSPerUnit, capexTPMS, capexOther,
    capexInstall, unitsClamped, termClamped, clampNum, scenarioDeal]

theorem scenarioDeal_fcfAt_two : fcfAt scenarioDeal 2 = 6950 / 3 := by
  norm_num [fcfAt, monthRow, monthlyRecurringRevenue, upfrontRecognMonths,
    upfrontRevenuePerMonth, amortTPMSMonthly, amortOtherMonthly,
    recurringCOGSMonthly, recurringCOGSPerUnit, capexTPMS, capexOther,
    capexInstall, unitsClamped, termClamped, clampNum, scenarioDeal]

theorem scenarioDeal_fcfAt_three : fcfAt scenarioDeal 3 = 6950 / 3 := by
  norm_num [fcfAt, monthRow, monthlyRecurringRevenue, upfrontRecognMonths,
    upfrontRevenuePerMonth, amortTPMSMonthly, amortOtherMonthly,
    recurringCOGSMonthly, recurringCOGSPerUnit, capexTPMS, capexOther,
    capexInstall, unitsClamped, termClamped, clampNum, scenarioDeal]

theorem scenarioDeal_fcfAt_four : fcfAt scenarioDeal 4 = 6950 / 3 := by
  norm_num [fcfAt, monthRow, monthlyRecurringRevenue, upfrontRecognMonths,
    upfrontRevenuePerMonth, amortTPMSMonthly, amortOtherMonthly,
    recurringCOGSMonthly, recurringCOGSPerUnit, capexTPMS, capexOther,
    capexInstall, unitsClamped, termClamped, clampNum, scenarioDeal]

theorem scenarioDeal_cumAt :
    cumAt scenarioDeal 0 = -8000 ∧ cumAt scenarioDeal 1 = -17050 / 3 ∧
      cumAt scenarioDeal 2 = -10100 / 3 ∧ cumAt scenarioDeal 3 = -1050 ∧
      cumAt scenarioDeal 4 = 3800 / 3 := by
  have h0 : cumAt scenarioDeal 0 = -8000 := by
    rw [cumAt_zero, scenarioDeal_cashM0]
  have h1 : cumAt scenarioDeal 1 = -17050 / 3 := by
    rw [show (1 : ℕ) = 0 + 1 from rfl, cumAt_succ, h0, scenarioDeal_fcfAt_one]
    norm_num
  have h2 : cumAt scenarioDeal 2 = -10100 / 3 := by
    rw [show (2 : ℕ) = 1 + 1 from rfl, cumAt_succ, h1, scenarioDeal_fcfAt_two]
    norm_num
  have h3 : cumAt scenarioDeal 3 = -1050 := by
    rw [show (3 : ℕ) = 2 + 1 from rfl, cumAt_succ, h2, scenarioDeal_fcfAt_three]
    norm_num
  have h4 : cumAt scenarioDeal 4 = 3800 / 3 := by
    rw [show (4 : ℕ) = 3 + 1 from rfl, cumAt_succ, h3, scenarioDeal_fcfAt_four]
    norm_num
  exact ⟨h0, h1, h2, h3, h4⟩

/-- Cumulative free cash flow of the §8 scenario first reaches 0 at month 4. -/
theorem scenarioDeal_payback : payback scenarioDeal = some 4 := by
  obtain ⟨h0, h1, h2, h3, h4⟩ := scenarioDeal_cumAt
  rw [payback_some_iff]
  refine ⟨by rw [scenarioDeal_numMonths]; norm_num, by rw [h4]; norm_num, ?_⟩
  intro q hq
  interval_cases q
  · rw [h0]; norm_num
  · rw [h1]; norm_num
  · rw [h2]; norm_num
  · rw [h3]; norm_num

/-! ### The claims -/

/-- C1 counterexample: on the spec's §8 scenario the engine does not produce
a month-1 gross margin of 1,150, nor a month-1 free cash flow of 1,900, nor
a payback period of 5 (the spec's arithmetic omits the evenly recognized
upfront revenue that the engine books into months 1..24). -/
theorem c1_scenario_counterexample :
    (rows scenarioDeal).head?.map MonthRow.grossMargin ≠ some 1150 ∧
      (rows scenarioDeal).head?.map MonthRow.fcf ≠ some 1900 ∧
      payback scenarioDeal ≠ some 5 := by
  refine ⟨?_, ?_, ?_⟩
  · rw [scenarioDeal_head_grossMargin]
    intro h
    rw [Option.some.injEq] at h
    norm_num at h
  · rw [scenarioDeal_head_fcf]
    intro h
    rw [Option.some.injEq] at h
    norm_num at h
  · rw [scenarioDeal_payback]
    intro h
    rw [Option.some.injEq] at h
    omega

/-- C1 (amended): on the spec's §8 scenario the engine produces an inception
cash event of −8,000, a month-1 gross margin of 4700/3 ≈ 1,566.67, a month-1
free cash flow of 6950/3 ≈ 2,316.67, and a payback period of 4. -/
theorem c1_scenario :
    cashM0 scenarioDeal = -8000 ∧
      (rows scenarioDeal).head?.map MonthRow.grossMargin = some (4700 / 3) ∧
      (rows scenarioDeal).head?.map MonthRow.fcf = some (6950 / 3) ∧
      payback scenarioDeal = some 4 :=
  ⟨scenarioDeal_cashM0, scenarioDeal_head_grossMargin, scenarioDeal_head_fcf,
    scenarioDeal_payback⟩

/-- C2 counterexample: with unit count 0 but upfront payment total 240 over
a 1-month recognition window, the month-1 row has revenue 240 (and hence
margin and free cash flow 240), not 0. -/
theorem c2_zero_units_counterexample :
    ¬ (rows zeroUnitsDeal).Forall (fun r =>
        r.revenue = 0 ∧ r.totalCOGS = 0 ∧ r.grossMargin = 0 ∧ r.fcf = 0) := by
  intro h
  rw [List.forall_iff_forall_mem] at h
  have hn : numMonths zeroUnitsDeal = 2 := by
    norm_num [numMonths, termClamped, clampNum, zeroUnitsDeal, Rat.floor_def']
    decide
  have hmem : monthRow zeroUnitsDeal 1 (cashM0 zeroUnitsDeal) ∈ rows zeroUnitsDeal := by
    rw [rows, hn]
    exact List.mem_cons_self _ _
  have hrev := (h _ hmem).1
  have hval : (monthRow zeroUnitsDeal 1 (cashM0 zeroUnitsDeal)).revenue = 240 := by
    norm_num [monthRow, monthlyRecurringRevenue, upfrontRecognMonths,
      upfrontRevenuePerMonth, unitsClamped, termClamped, clampNum, zeroUnitsDeal]
  rw [hval] at hrev
  norm_num at hrev

/-- C2 (amended): for every parameter record with unit count 0 and upfront
payment total 0, every operating row has revenue, total COGS, gross margin
and free cash flow all 0, regardless of the remaining fields. -/
theorem c2_zero_units (inp : Inputs) (hu : inp.units = 0)
    (hupf : inp.upfrontPaymentTotal = 0) :
    (rows inp).Forall (fun r =>
        r.revenue = 0 ∧ r.totalCOGS = 0 ∧ r.grossMargin = 0 ∧ r.fcf = 0) := by
  rw [List.forall_iff_forall_mem]
  intro r hr
  obtain ⟨m', c', rfl⟩ := mem_rows inp hr
  have hu0 : unitsClamped inp = 0 := by
    rw [unitsClamped, clampNum, hu]
    exact max_self 0
  simp [monthRow, monthlyRecurringRevenue, hu0, upfrontRevenuePerMonth, hupf,
    recurringCOGSMonthly, amortTPMSMonthly, amortOtherMonthly, capexTPMS,
    capexOther, capexInstall]

/-- C2 witness: the all-zero conclusion at the concrete record with 0 units
and 0 upfront payment. -/
theorem c2_zero_units_witness :
    (rows zeroUnitsZeroUpfrontDeal).Forall (fun r =>
        r.revenue = 0 ∧ r.totalCOGS = 0 ∧ r.grossMargin = 0 ∧ r.fcf = 0) :=
  c2_zero_units zeroUnitsZeroUpfrontDeal rfl rfl

/-- C3: for every parameter record (with the invariant `0 ≤ units`, and
writing the upfront payment total as unit count × an upfront payment per
unit), the inception cash event equals unit count × upfront-payment-per-unit
minus unit count × the sum of the three per-unit capex buckets, and both the
capital outflow and the upfront inflow are 0 in every operating row. -/
theorem c3_inception_cash (inp : Inputs) (u : ℚ) (hu : 0 ≤ inp.units)
    (hup : inp.upfrontPaymentTotal = inp.units * u) :
    cashM0 inp = inp.units * u -
        inp.units * (inp.tpmsCapexPerUnit + inp.otherHwCapexPerUnit +
          inp.installCapexPerUnit) ∧
      (rows inp).Forall (fun r => r.capexCash = 0 ∧ r.upfrontCash = 0) := by
  constructor
  · have hcl : unitsClamped inp = inp.units := max_eq_right hu
    rw [cashM0, totalCapexCash, capexTPMS, capexOther, capexInstall, hcl, hup]
    ring
  · rw [List.forall_iff_forall_mem]
    intro r hr
    obtain ⟨m', c', rfl⟩ := mem_rows inp hr
    exact ⟨monthRow_capexCash inp m' c', monthRow_upfrontCash inp m' c'⟩

/-- C3 witness: the inception-cash identity and the zero cash-event columns
at `sampleDeal` (2 units, 5 upfront per unit, capex 3 + 4 + 5). -/
theorem c3_inception_cash_witness :
    cashM0 sampleDeal =
      sampleDeal.units * 5 -
        sampleDeal.units * (sampleDeal.tpmsCapexPerUnit +
          sampleDeal.otherHwCapexPerUnit + sampleDeal.installCapexPerUnit) ∧
    (rows sampleDeal).Forall (fun r => r.capexCash = 0 ∧ r.upfrontCash = 0) :=
  c3_inception_cash sampleDeal 5 (by norm_num [sampleDeal]) (by norm_num [sampleDeal])

/-- C4: the payback result is the least period index (period 0 = inception)
whose cumulative free cash flow is non-negative — 0 when the inception cash
event alone is non-negative — and it is `none` exactly when cumulative free
cash flow stays negative through every period of the term. -/
theorem c4_payback_least (inp : Inputs) :
    (∀ p, payback inp = some p ↔
        p ≤ numMonths inp ∧ 0 ≤ cumAt inp p ∧ ∀ q < p, cumAt inp q < 0) ∧
      (payback inp = none ↔ ∀ q ≤ numMonths inp, cumAt inp q < 0) :=
  ⟨fun p => payback_some_iff inp p, payback_none_iff inp⟩

/-- C5: when NPV does not change sign between the monthly rates −0.9999 and
10 (their product is positive), the IRR routine does not fail: it returns a
rate drawn from the fallback-scan candidates (the domain's low end seed or a
grid point of the coarse scan over [−0.9, 1]) that minimizes `|NPV|` among
all of them.  Over exact rational arithmetic no non-finite NPV evaluation
exists, so the `null` return of the source never occurs. -/
theorem c5_irr_no_sign_change (cfs : List ℚ) (g : ℚ)
    (h : 0 < npv irrLo cfs * npv irrHi cfs) :
    ∃ r, irr cfs g = some r ∧ (r = irrLo ∨ r ∈ scanGrid) ∧
      ∀ c, (c = irrLo ∨ c ∈ scanGrid) → |npv r cfs| ≤ |npv c cfs| := by
  have hspec := scanBest_spec (fun r => npv r cfs) scanGrid irrLo
  refine ⟨(scanBest (fun r => npv r cfs) (irrLo, |npv irrLo cfs|) scanGrid).1,
    ?_, hspec.1, ?_⟩
  · rw [irr, if_pos h]
  · intro c hc
    have hval := hspec.2.1
    rw [← hval]
    rcases hc with rfl | hc
    · exact hspec.2.2.1
    · exact hspec.2.2.2 c hc

/-- C5 witness: the all-positive cash-flow vector `[1]` has no sign change
(NPV is 1 at every rate), and the routine returns the scan's minimizer. -/
theorem c5_irr_no_sign_change_witness :
    ∃ r, irr [(1 : ℚ)] 0 = some r ∧ (r = irrLo ∨ r ∈ scanGrid) ∧
      ∀ c, (c = irrLo ∨ c ∈ scanGrid) → |npv r [(1 : ℚ)]| ≤ |npv c [(1 : ℚ)]| :=
  c5_irr_no_sign_change [1] 0 (by norm_num [npv, npvAux])

/-- C6: the IRR routine terminates on every cash-flow vector: the bisection
loop runs at most its 200-iteration budget, stops early only at a midpoint
whose `|NPV|` is below 1e-8 and otherwise returns the midpoint reached when
the budget is exhausted, and `irr` always produces a result. -/
theorem c6_irr_terminates (cfs : List ℚ) (lo hi fLo g : ℚ) :
    ((bisectLoop (fun r => npv r cfs) 200 lo hi fLo g).2 ≤ 200 ∧
      (|npv (bisectLoop (fun r => npv r cfs) 200 lo hi fLo g).1 cfs| < irrEps ∨
        (bisectLoop (fun r => npv r cfs) 200 lo hi fLo g).2 = 200)) ∧
    (irr cfs g).isSome = true :=
  ⟨⟨bisectLoop_steps_le (fun r => npv r cfs) 200 lo hi fLo g,
      bisectLoop_stop (fun r => npv r cfs) 200 lo hi fLo g⟩,
    irr_isSome cfs g⟩

/-- C7: NPV at a discount rate of 0 is the undiscounted sum of the cash-flow
vector. -/
theorem c7_npv_zero_rate (cfs : List ℚ) : npv 0 cfs = cfs.sum :=
  npvAux_zero_rate 0 cfs

/-- C8: in every monthly row and every annual row, gross margin is revenue
minus total COGS, and gross margin % is margin/revenue when revenue is
positive and 0 otherwise. -/
theorem c8_margin_guarded (inp : Inputs) :
    (rows inp).Forall (fun r => r.grossMargin = r.revenue - r.totalCOGS ∧
        r.grossMarginPct =
          if 0 < r.revenue then r.grossMargin / r.revenue else 0) ∧
      (annual inp).Forall (fun a => a.grossMargin = a.revenue - a.totalCOGS ∧
        a.grossMarginPct =
          if 0 < a.revenue then a.grossMargin / a.revenue else 0) := by
  constructor
  · rw [List.forall_iff_forall_mem]
    intro r hr
    obtain ⟨m', c', rfl⟩ := mem_rows inp hr
    exact ⟨monthRow_grossMargin inp m' c', monthRow_grossMarginPct inp m' c'⟩
  · rw [List.forall_iff_forall_mem]
    intro a ha
    obtain ⟨y', c', rfl⟩ := mem_annual inp ha
    exact ⟨annualRowOf_grossMargin inp y' c', annualRowOf_grossMarginPct inp y' c'⟩

/-- C9: raising the monthly recurring revenue per unit (all else fixed)
never increases the payback month, with a never-reached payback counting as
larger than every month index. -/
theorem c9_payback_mono_arpu (inp : Inputs) (a : ℚ)
    (h : inp.arpuMonthlyPerUnit ≤ a) :
    paybackLe (payback (setArpu inp a)) (payback inp) := by
  rcases hp : payback inp with - | k
  · rcases payback (setArpu inp a) with - | k' <;> trivial
  · rw [payback_some_iff] at hp
    obtain ⟨h1, h2, -⟩ := hp
    obtain ⟨k', hk', hle⟩ := payback_le_of_cross (setArpu inp a)
      (q := k) (by rw [numMonths_setArpu]; exact h1)
      (le_trans h2 (cumAt_mono_arpu inp h k))
    rw [hk']
    exact hle

/-- C9 witness: at `sampleDeal` with ARPU 1 raised to 3, payback does not
get later. -/
theorem c9_payback_mono_arpu_witness :
    paybackLe (payback (setArpu sampleDeal 3)) (payback sampleDeal) :=
  c9_payback_mono_arpu sampleDeal 3 (by norm_num [sampleDeal])

/-- C10: in every operating month, free cash flow equals revenue minus the
recurring cash COGS — the depreciation add-back exactly cancels the
amortization inside COGS — and consequently the monthly and cumulative FCF
columns are unchanged by varying the TPMS amortization term. -/
theorem c10_fcf_addback_cancels (inp : Inputs) (t : ℚ) :
    (rows inp).Forall (fun r => r.fcf = r.revenue - r.cogsRecurring) ∧
      (rows (setTpmsAmort inp t)).map (fun r => (r.fcf, r.cumFCF)) =
        (rows inp).map (fun r => (r.fcf, r.cumFCF)) := by
  constructor
  · rw [List.forall_iff_forall_mem]
    intro r hr
    obtain ⟨m', c', rfl⟩ := mem_rows inp hr
    exact monthRow_fcf_eq_rev_sub_cogs inp m' c'
  · rw [rows, rows, cashM0_setTpmsAmort, numMonths_setTpmsAmort]
    exact rowsAux_fcf_cum_setTpmsAmort inp t (numMonths inp) 1 (cashM0 inp)

end DealEval
